import Mathlib

/-!
Verification of the looper timestamp store and loop-playback controller,
a shallow embedding of `src/app/model.py` and `src/gui/main_window.py`.

Strings are modelled as Lean `String` / `List Char` over the ASCII fragment
the program manipulates.  Python's `int(ms/1000)` float division is exact on
every value produced here (the numerator is a multiple of 1000 far below
2^53), so it is embedded as truncating natural division.
-/

namespace Looper

/-! ### Decimal digit primitives (Python `%d` formatting and `int()` parsing) -/

/-- One decimal digit character, as produced by Python's `"%d"` formatting. -/
def digitChar : Nat → Char
  | 0 => '0'
  | 1 => '1'
  | 2 => '2'
  | 3 => '3'
  | 4 => '4'
  | 5 => '5'
  | 6 => '6'
  | 7 => '7'
  | 8 => '8'
  | 9 => '9'
  | _ => '*'

/-- Numeric value of a decimal digit character (`ord(c) - ord('0')`). -/
def digitVal (c : Char) : Nat := c.toNat - 48

/-- Decimal digits of `n`, most significant first (fuel-driven; `fuel ≥ n`
suffices, and `natRepr` always supplies enough). -/
def natDigitsAux : Nat → Nat → List Char
  | 0, _ => []
  | fuel + 1, n =>
    if n = 0 then []
    else natDigitsAux fuel (n / 10) ++ [digitChar (n % 10)]

/-- The decimal rendering of a natural number, as Python `"%d"` prints it. -/
def natRepr (n : Nat) : List Char :=
  if n = 0 then ['0'] else natDigitsAux n n

/-- Zero padding to a field of `width` characters, as in `"%02d"` / `"%03d"`. -/
def padZeros (width n : Nat) : List Char :=
  List.replicate (width - (natRepr n).length) '0' ++ natRepr n

/-- Value of a digit run, most significant first. -/
def digitsNat (l : List Char) : Nat :=
  l.foldl (fun a c => a * 10 + digitVal c) 0

/-- Split at the first occurrence of `sep`; `none` when `sep` does not occur. -/
def splitOnceChar (sep : Char) : List Char → Option (List Char × List Char)
  | [] => none
  | c :: cs =>
    if c = sep then some ([], cs)
    else
      match splitOnceChar sep cs with
      | none => none
      | some (pre, post) => some (c :: pre, post)

/-- Python `text.split(sep, maxsplit)` for a one-character separator. -/
def pySplitMax (sep : Char) : Nat → List Char → List (List Char)
  | 0, s => [s]
  | k + 1, s =>
    match splitOnceChar sep s with
    | none => [s]
    | some (pre, post) => pre :: pySplitMax sep k post

/-- After an initial digit of a Python int literal: `(underscore? digit)*`,
returning the digit characters (single underscores may separate digits). -/
def digitsTail : List Char → Option (List Char)
  | [] => some []
  | c :: cs =>
    if c.isDigit then (digitsTail cs).map (c :: ·)
    else if c = '_' then
      match cs with
      | [] => none
      | d :: cs' => if d.isDigit then (digitsTail cs').map (d :: ·) else none
    else none

/-- The digit run of a Python int literal: one digit, then `digitsTail`. -/
def pyDigits : List Char → Option (List Char)
  | [] => none
  | c :: cs => if c.isDigit then (digitsTail cs).map (c :: ·) else none

/-- The ten decimal digit characters. -/
def decDigits : List Char := ['0', '1', '2', '3', '4', '5', '6', '7', '8', '9']

/-- Python `int(text)` on the ASCII fragment: optional surrounding whitespace,
an optional sign, then an underscore-grouped digit run.  `none` models the
raised `ValueError`. -/
def pyInt (s : String) : Option Int :=
  match ((s.data.dropWhile Char.isWhitespace).reverse.dropWhile
      Char.isWhitespace).reverse with
  | [] => none
  | c :: rest =>
    if c = '-' then (pyDigits rest).map (fun ds => -(digitsNat ds : Int))
    else if c = '+' then (pyDigits rest).map (fun ds => (digitsNat ds : Int))
    else (pyDigits (c :: rest)).map (fun ds => (digitsNat ds : Int))

/-! ### `TimestampDelta` (`src/app/model.py`, lines 10-32) -/

/-- Python `datetime.timedelta` normal form: `0 ≤ seconds < 86400` and
`0 ≤ microseconds < 1000000` whenever built by the constructors below. -/
structure TimestampDelta where
  days : Nat
  seconds : Nat
  microseconds : Nat
  deriving DecidableEq, Repr

/-- `timedelta` normalization of a nonnegative total number of microseconds. -/
def TimestampDelta.ofMicroseconds (us : Nat) : TimestampDelta :=
  { days := us / 86400000000
    seconds := us / 1000000 % 86400
    microseconds := us % 1000000 }

/-- `TimestampDelta(hours=h, minutes=m, seconds=s, milliseconds=ms)`. -/
def TimestampDelta.make (h m s ms : Nat) : TimestampDelta :=
  TimestampDelta.ofMicroseconds (((h * 60 + m) * 60 + s) * 1000000 + ms * 1000)

/-- `TimestampDelta(milliseconds=ms)`. -/
def TimestampDelta.ofMilliseconds (ms : Nat) : TimestampDelta :=
  TimestampDelta.ofMicroseconds (ms * 1000)

/-- The `milliseconds` property (`model.py` lines 25-32), exactly as written:
the days contribution uses the source's factor `24 * 60 * 60 * 100000`. -/
def TimestampDelta.milliseconds (t : TimestampDelta) : Nat :=
  (t.seconds * 1000000 + t.microseconds + t.days * 24 * 60 * 60 * 100000) / 1000

/-- `TimestampDelta.__str__` (`model.py` lines 14-23): empty for a zero value,
otherwise `"%d:%02d:%02d.%03d" % (hh, mm, ss, ms)`. -/
def TimestampDelta.str (t : TimestampDelta) : String :=
  if t.milliseconds = 0 then ""
  else
    let mm := t.seconds / 60
    let ss := t.seconds % 60
    let hh := mm / 60
    let mm1 := mm % 60
    let hh1 := if t.days ≠ 0 then hh + t.days * 24 else hh
    let ms := t.microseconds / 1000
    String.mk (natRepr hh1 ++ ':' :: padZeros 2 mm1 ++ ':' :: padZeros 2 ss
      ++ '.' :: padZeros 3 ms)

/-- `Timestamp.get_timestamp_from_string` (`model.py` lines 63-82); `none`
models the raised `ValueError` / `IndexError` (both are caught identically by
every caller in the program). -/
def get_timestamp_from_string (time_string : String) : Option TimestampDelta :=
  if time_string = "" then some (TimestampDelta.ofMilliseconds 0)
  else
    match pySplitMax ':' 2 time_string.data with
    | t0 :: t1 :: t2 :: _ =>
      match pySplitMax '.' 1 t2 with
      | s0 :: s1 :: _ =>
        match pyInt (String.mk t0) with
        | none => none
        | some hours =>
          if hours < 0 then none
          else
            match pyInt (String.mk t1) with
            | none => none
            | some minutes =>
              if minutes < 0 ∨ 60 ≤ minutes then none
              else
                match pyInt (String.mk s0) with
                | none => none
                | some seconds =>
                  if seconds < 0 ∨ 60 ≤ seconds then none
                  else
                    match pyInt (String.mk s1) with
                    | none => none
                    | some ms =>
                      if ms < 0 ∨ 1000 ≤ ms then none
                      else
                        some (TimestampDelta.make hours.toNat minutes.toNat
                          seconds.toNat ms.toNat)
      | _ => none
    | _ => none

/-! ### `Timestamp`, `TimestampList` and `TimestampModel` (`model.py` 35-199) -/

/-- One interval row (`Timestamp`): parsed start/end, free-text description
(`None` possible). -/
structure Timestamp where
  start_time : TimestampDelta
  end_time : TimestampDelta
  description : Option String
  deriving DecidableEq, Repr

/-- `Timestamp.__init__` from persisted record texts; `none` models the
`ValueError` raised by `get_timestamp_from_string`. -/
def Timestamp.ofStrings (start_s end_s : String) (desc : Option String) :
    Option Timestamp := do
  let st ← get_timestamp_from_string start_s
  let en ← get_timestamp_from_string end_s
  pure { start_time := st, end_time := en, description := desc }

/-- `Timestamp.get_string_value_from_index` (lines 47-49): display text of a
cell (the description may be Python `None`). -/
def Timestamp.get_string_value_from_index (t : Timestamp) (index : Nat) :
    Option String :=
  if index = 0 then some t.start_time.str
  else if index = 1 then some t.end_time.str
  else t.description

/-- Minimal `json.dumps` string escaping on the ASCII fragment produced here
(backslash and double quote; no control characters occur). -/
def jsonEscape (s : String) : String :=
  String.mk (s.data.flatMap fun c =>
    if c = '\\' then ['\\', '\\']
    else if c = '"' then ['\\', '"']
    else [c])

/-- A JSON string literal. -/
def jsonStr (s : String) : String := "\"" ++ jsonEscape s ++ "\""

/-- `Timestamp.__repr__` (lines 84-89): the record as a JSON object. -/
def Timestamp.reprJson (t : Timestamp) : String :=
  "\x7b\"start_time\": " ++ jsonStr t.start_time.str
    ++ ", \"end_time\": " ++ jsonStr t.end_time.str
    ++ ", \"description\": "
    ++ (match t.description with
        | none => "null"
        | some d => jsonStr d)
    ++ "\x7d"

/-- `TimestampList.to_json` (lines 122-123). -/
def TimestampList.to_json (l : List Timestamp) : String :=
  "[" ++ String.intercalate "," (l.map Timestamp.reprJson) ++ "]"

/-- Stable insertion of `x` after every element strictly preceding it under
`lt`; elements the strict comparison ties keep the existing one first. -/
def insertStable (lt : α → α → Bool) (x : α) : List α → List α
  | [] => [x]
  | y :: ys => if lt y x then y :: insertStable lt x ys else x :: y :: ys

/-- Stable insertion sort (head element inserted before later-input ties). -/
def sortStable (lt : α → α → Bool) : List α → List α
  | [] => []
  | x :: xs => insertStable lt x (sortStable lt xs)

/-- `TimestampList.sort` (lines 113-116): Python `sorted` with
`key=start_time.milliseconds` and the `reverse` flag.  `sorted` is specified
as a stable sort, hence extensionally the stable insertion sort by that key. -/
def TimestampList.sort (reverse : Bool) (l : List Timestamp) : List Timestamp :=
  sortStable (fun a b =>
    if reverse then decide (b.start_time.milliseconds < a.start_time.milliseconds)
    else decide (a.start_time.milliseconds < b.start_time.milliseconds)) l

/-- The in-memory store of `TimestampModel` backed by a writable source file:
the parsed rows and the backing file's current content. -/
structure TimestampModelState where
  rows : List Timestamp
  persisted : String
  deriving DecidableEq, Repr

/-- `TimestampModel.rowCount` for the root parent. -/
def TimestampModelState.rowCount (st : TimestampModelState) : Nat :=
  st.rows.length

/-- `TimestampModel.data` at `DisplayRole`/`EditRole` for a valid index. -/
def TimestampModelState.display_at (st : TimestampModelState) (row col : Nat) :
    Option String :=
  match st.rows[row]? with
  | none => none
  | some t => t.get_string_value_from_index col

/-- `TimestampModel.setData` (lines 181-195) for an edit-role index on a
file-backed store: result is the new state, the returned boolean and the
`time_parse_error` payload when emitted.  An out-of-range row models an
invalid `QModelIndex` (rejected before the `try` block). -/
def setData (st : TimestampModelState) (row col : Nat) (content : String) :
    TimestampModelState × Bool × Option String :=
  if h : row < st.rows.length then
    if col = 0 ∨ col = 1 then
      match get_timestamp_from_string content with
      | none => (st, false, some ("Time invalid: " ++ content))
      | some d =>
        let t := st.rows.get ⟨row, h⟩
        let t' := if col = 0 then { t with start_time := d }
                  else { t with end_time := d }
        let rows' := st.rows.set row t'
        ({ rows := rows', persisted := TimestampList.to_json rows' }, true, none)
    else
      let rows' :=
        if col = 2 then
          st.rows.set row { st.rows.get ⟨row, h⟩ with description := some content }
        else st.rows
      ({ rows := rows', persisted := TimestampList.to_json rows' }, true, none)
  else (st, false, none)

/-- One decoded record of the persisted JSON list. -/
structure RawRecord where
  start_time : String
  end_time : String
  description : Option String
  deriving DecidableEq, Repr

/-- `TimestampList.__init__` (lines 99-108) over decoded records: parsing any
record may raise, abandoning the whole list. -/
def TimestampList.ofData : List RawRecord → Option (List Timestamp)
  | [] => some []
  | r :: rs => do
    let t ← Timestamp.ofStrings r.start_time r.end_time r.description
    let ts ← TimestampList.ofData rs
    pure (t :: ts)

/-- `TimestampModel.__init__` (lines 142-149) for a backing file whose
decoded JSON is `data` and raw content `content`; `none` models the
`ValueError` escaping the constructor. -/
def mkTimestampModel (data : List RawRecord) (content : String) :
    Option TimestampModelState :=
  (TimestampList.ofData data).map fun rows =>
    { rows := rows, persisted := content }

/-- The slice of `MainWindow` owning the timestamp store. -/
structure WindowStore where
  timestamp_model : TimestampModelState
  timestamp_filename : Option String
  deriving DecidableEq, Repr

/-- `MainWindow.set_timestamp_filename` (lines 318-352) restricted to its
store effects: the model is constructed first (line 327), so a `ValueError`
leaves the window unchanged and surfaces "Timestamp file is invalid"; file
existence and video autodiscovery are I/O collaborators outside the store. -/
def set_timestamp_filename (w : WindowStore) (filename : String)
    (data : List RawRecord) (content : String) : WindowStore × Option String :=
  match mkTimestampModel data content with
  | none => (w, some "Timestamp file is invalid")
  | some m =>
    ({ timestamp_model := m, timestamp_filename := some filename }, none)

/-! ### Loop controller (`src/gui/main_window.py`) -/

/-- Mutable `MainWindow` session state driving the loop.  The source's
`media_end_time = -1` is the "unbounded" sentinel.  (Before the first `run`
the Python fields hold `None`; no player position events are delivered until
a media is loaded and run, so the controller model covers the `Int`-valued
states.) -/
structure LoopState where
  media_start_time : Int
  media_end_time : Int
  restart_needed : Bool
  media_started_playing : Bool
  media_is_playing : Bool
  deriving DecidableEq, Repr

/-- Commands issued to the external player or the progress slider. -/
inductive Cmd
  | play
  | set_time (ms : Int)
  | set_position (tenthousandths : Int)
  | set_highlight (start_ms end_ms duration : Int)
  deriving DecidableEq, Repr

/-- Commands that mutate the external player (highlighting only paints the
progress slider). -/
def Cmd.mutatesPlayer : Cmd → Bool
  | .set_highlight _ _ _ => false
  | _ => true

/-- `MainWindow.media_time_change_handler` (lines 215-219); `current` is the
player's `get_time()` inside the callback. -/
def media_time_change_handler (st : LoopState) (current : Int) :
    LoopState × List Cmd :=
  if st.media_end_time = -1 then (st, [])
  else if current > st.media_end_time then
    ({ st with restart_needed := true }, [])
  else (st, [])

/-- `MainWindow.timer_handler` (lines 164-172): the deferred restart issued
from the 100 ms timer. -/
def timer_handler (st : LoopState) : LoopState × List Cmd :=
  if st.restart_needed then
    ({ st with restart_needed := false }, [Cmd.set_time st.media_start_time])
  else (st, [])

/-- `MainWindow.run` (lines 221-266) with a selected row, for a window whose
timestamp and video files are set: the bounds are written first (lines
244-245); computing the slider highlight then divides by `duration`, raising
`ZeroDivisionError` (caught at line 264) when the duration is zero/unknown —
the returned flag reports that error path.  Slider-pixel values are carried
symbolically in the highlight command; their float rounding is irrelevant to
every claim. -/
def run_selected (st : LoopState) (start_delta end_delta : TimestampDelta)
    (duration : Int) : LoopState × List Cmd × Bool :=
  let st1 := { st with media_start_time := (start_delta.milliseconds : Int),
                       media_end_time := (end_delta.milliseconds : Int) }
  if duration = 0 then (st1, [], true)
  else
    ({ st1 with media_started_playing := true, media_is_playing := true },
     [Cmd.set_highlight st1.media_start_time st1.media_end_time duration,
      Cmd.play, Cmd.set_time st1.media_start_time], false)

/-- `MainWindow.run` without a selection (lines 256-263): free play from the
start, end bound unbounded. -/
def run_unselected (st : LoopState) : LoopState × List Cmd :=
  ({ st with media_start_time := 0, media_end_time := -1,
             media_started_playing := true, media_is_playing := true },
   [Cmd.play, Cmd.set_time 0])

/-- `MainWindow.set_media_position` (lines 144-146): manual scrubbing clears
the armed end bound. -/
def set_media_position (st : LoopState) (position : Int) :
    LoopState × List Cmd :=
  ({ st with media_end_time := -1 }, [Cmd.set_position position])

/-- External stimuli of the controller. -/
inductive Event
  | posChanged (current : Int)
  | tick
  | runSel (start_delta end_delta : TimestampDelta) (duration : Int)
  | runNoSel
  | scrub (position : Int)
  deriving DecidableEq, Repr

/-- One controller step. -/
def step (st : LoopState) : Event → LoopState × List Cmd
  | .posChanged c => media_time_change_handler st c
  | .tick => timer_handler st
  | .runSel s e d =>
    let r := run_selected st s e d
    (r.1, r.2.1)
  | .runNoSel => run_unselected st
  | .scrub p => set_media_position st p

/-- A sequence of steps, collecting every issued command. -/
def runTrace (st : LoopState) : List Event → LoopState × List Cmd
  | [] => (st, [])
  | e :: es =>
    let r1 := step st e
    let r2 := runTrace r1.1 es
    (r2.1, r1.2 ++ r2.2)

/-! ### Claim-side shape predicates for the parser characterization (C4) -/

/-- The claim's canonical shape `H:MM:SS.mmm` with the component ranges:
hours a nonempty digit run, minutes and seconds zero-padded two digits below
60, milliseconds zero-padded three digits.  Stated from the claim's words,
for comparison with the source parser. -/
def strictAccepts (s : String) : Bool :=
  match splitOnceChar ':' s.data with
  | none => false
  | some (h, rest) =>
    match splitOnceChar ':' rest with
    | none => false
    | some (m, rest2) =>
      match splitOnceChar '.' rest2 with
      | none => false
      | some (sec, ms) =>
        (!h.isEmpty) && h.all Char.isDigit
          && (m.length == 2) && m.all Char.isDigit
          && (sec.length == 2) && sec.all Char.isDigit
          && (ms.length == 3) && ms.all Char.isDigit
          && decide (digitsNat m < 60) && decide (digitsNat sec < 60)

/-- The amended acceptance predicate: decompose at the first two colons and
the first following dot; every component a Python integer literal; hours
nonnegative, minutes and seconds below 60, milliseconds below 1000 (zero
padding is not required). -/
def lenientAccepts (s : String) : Bool :=
  match splitOnceChar ':' s.data with
  | none => false
  | some (h, rest) =>
    match splitOnceChar ':' rest with
    | none => false
    | some (m, rest2) =>
      match splitOnceChar '.' rest2 with
      | none => false
      | some (sec, ms) =>
        match pyInt (String.mk h), pyInt (String.mk m),
              pyInt (String.mk sec), pyInt (String.mk ms) with
        | some hv, some mv, some sv, some msv =>
          decide (0 ≤ hv ∧ 0 ≤ mv ∧ mv < 60 ∧ 0 ≤ sv ∧ sv < 60
            ∧ 0 ≤ msv ∧ msv < 1000)
        | _, _, _, _ => false

/-! ### Supporting lemmas -/

/-- A list of records containing one with unparsable time text never builds. -/
theorem ofData_eq_none_of_bad :
    ∀ data : List RawRecord,
      (∃ r ∈ data, get_timestamp_from_string r.start_time = none
        ∨ get_timestamp_from_string r.end_time = none) →
      TimestampList.ofData data = none := by
  intro data hbad
  induction data with
  | nil => simp at hbad
  | cons r rs ih =>
    obtain ⟨r', hr', hbad'⟩ := hbad
    simp only [List.mem_cons] at hr'
    simp only [TimestampList.ofData, Timestamp.ofStrings, Option.bind_eq_bind,
      Option.bind]
    rcases hr' with rfl | hmem
    · rcases hbad' with h | h
      · rw [h]
      · cases hs : get_timestamp_from_string r'.start_time
        · rfl
        · rw [h]
    · cases hs : get_timestamp_from_string r.start_time
      · rfl
      · cases he : get_timestamp_from_string r.end_time
        · rfl
        · rw [ih ⟨r', hmem, hbad'⟩]

/-! ### Digit-rendering and digit-parsing lemmas (for C3 and C4) -/

theorem digitChar_mem_decDigits {d : Nat} (h : d < 10) :
    digitChar d ∈ decDigits := by
  interval_cases d <;> decide

theorem digitVal_digitChar {d : Nat} (h : d < 10) :
    digitVal (digitChar d) = d := by
  interval_cases d <;> decide

theorem mem_decDigits_isDigit : ∀ c ∈ decDigits, c.isDigit = true := by decide

theorem mem_decDigits_facts :
    ∀ c ∈ decDigits, c.isWhitespace = false ∧ ¬c = ':' ∧ ¬c = '.'
      ∧ ¬c = '-' ∧ ¬c = '+' := by decide

theorem natDigitsAux_mem_decDigits :
    ∀ fuel n, ∀ c ∈ natDigitsAux fuel n, c ∈ decDigits := by
  intro fuel
  induction fuel with
  | zero => intro n c hc; simp [natDigitsAux] at hc
  | succ fuel ih =>
    intro n c hc
    simp only [natDigitsAux] at hc
    split at hc
    · simp at hc
    · rcases List.mem_append.mp hc with h | h
      · exact ih _ c h
      · rw [List.mem_singleton] at h
        subst h
        exact digitChar_mem_decDigits (Nat.mod_lt _ (by omega))

theorem natRepr_mem_decDigits (n : Nat) : ∀ c ∈ natRepr n, c ∈ decDigits := by
  intro c hc
  unfold natRepr at hc
  split at hc
  · rw [List.mem_singleton] at hc; subst hc; decide
  · exact natDigitsAux_mem_decDigits n n c hc

theorem natRepr_ne_nil (n : Nat) : natRepr n ≠ [] := by
  unfold natRepr
  split
  · simp
  · rename_i hn
    cases n with
    | zero => exact absurd rfl hn
    | succ k =>
      simp only [natDigitsAux, if_neg (Nat.succ_ne_zero k)]
      simp

theorem foldl_digits_spec :
    ∀ fuel n, n ≤ fuel → ∀ a : Nat,
      (natDigitsAux fuel n).foldl (fun a c => a * 10 + digitVal c) a
        = a * 10 ^ (natDigitsAux fuel n).length + n := by
  intro fuel
  induction fuel with
  | zero =>
    intro n hn a
    interval_cases n
    simp [natDigitsAux]
  | succ fuel ih =>
    intro n hn a
    by_cases h0 : n = 0
    · subst h0; simp [natDigitsAux]
    · have hdiv : n / 10 ≤ fuel := by omega
      simp only [natDigitsAux, if_neg h0]
      rw [List.foldl_append, List.length_append]
      simp only [List.foldl_cons, List.foldl_nil, List.length_cons,
        List.length_nil, Nat.zero_add]
      rw [ih _ hdiv, digitVal_digitChar (Nat.mod_lt _ (by omega))]
      calc (a * 10 ^ (natDigitsAux fuel (n / 10)).length + n / 10) * 10 + n % 10
          = a * (10 ^ (natDigitsAux fuel (n / 10)).length * 10)
            + (n / 10 * 10 + n % 10) := by ring
        _ = a * 10 ^ ((natDigitsAux fuel (n / 10)).length + 1) + n := by
            rw [Nat.div_add_mod' n 10, ← pow_succ]


theorem digitsNat_natRepr (n : Nat) : digitsNat (natRepr n) = n := by
  unfold natRepr digitsNat
  split
  · rename_i h; subst h; decide
  · simpa using foldl_digits_spec n n le_rfl 0

theorem digitsNat_replicate_zero (k : Nat) (l : List Char) :
    digitsNat (List.replicate k '0' ++ l) = digitsNat l := by
  unfold digitsNat
  rw [List.foldl_append]
  congr 1
  induction k with
  | zero => rfl
  | succ k ih =>
    rw [List.replicate_succ, List.foldl_cons]
    have h0 : (0 : Nat) * 10 + digitVal '0' = 0 := by decide
    rw [h0, ih]

theorem digitsNat_padZeros (w n : Nat) : digitsNat (padZeros w n) = n := by
  unfold padZeros
  rw [digitsNat_replicate_zero, digitsNat_natRepr]

theorem padZeros_mem_decDigits (w n : Nat) :
    ∀ c ∈ padZeros w n, c ∈ decDigits := by
  intro c hc
  unfold padZeros at hc
  rcases List.mem_append.mp hc with h | h
  · rw [List.eq_of_mem_replicate h]; decide
  · exact natRepr_mem_decDigits n c h

theorem padZeros_ne_nil (w n : Nat) : padZeros w n ≠ [] := by
  unfold padZeros
  intro h
  exact natRepr_ne_nil n (List.append_eq_nil.mp h).2

theorem digitsTail_of_digits :
    ∀ l : List Char, (∀ c ∈ l, c ∈ decDigits) → digitsTail l = some l := by
  intro l
  induction l with
  | nil => intro _; rfl
  | cons c cs ih =>
    intro h
    have hc : c.isDigit = true :=
      mem_decDigits_isDigit c (h c (List.mem_cons_self c cs))
    rw [digitsTail.eq_def]
    simp [hc, ih (fun d hd => h d (List.mem_cons_of_mem c hd))]

theorem pyDigits_of_digits (l : List Char) (h : ∀ c ∈ l, c ∈ decDigits)
    (hne : l ≠ []) : pyDigits l = some l := by
  cases l with
  | nil => exact absurd rfl hne
  | cons c cs =>
    have hc : c.isDigit = true :=
      mem_decDigits_isDigit c (h c (List.mem_cons_self c cs))
    simp only [pyDigits, if_pos hc,
      digitsTail_of_digits cs (fun d hd => h d (List.mem_cons_of_mem c hd)),
      Option.map_some']

theorem dropWhile_eq_self_of_false {p : Char → Bool} :
    ∀ l : List Char, (∀ c ∈ l, p c = false) → l.dropWhile p = l := by
  intro l h
  cases l with
  | nil => rfl
  | cons c cs =>
    rw [List.dropWhile_cons, if_neg]
    rw [h c (List.mem_cons_self c cs)]
    simp

theorem pyInt_of_digits (l : List Char) (h : ∀ c ∈ l, c ∈ decDigits)
    (hne : l ≠ []) : pyInt (String.mk l) = some ((digitsNat l : Nat) : Int) := by
  have hws : ∀ c ∈ l, c.isWhitespace = false :=
    fun c hc => (mem_decDigits_facts c (h c hc)).1
  have h1 : l.dropWhile Char.isWhitespace = l :=
    dropWhile_eq_self_of_false l hws
  have h2 : l.reverse.dropWhile Char.isWhitespace = l.reverse :=
    dropWhile_eq_self_of_false l.reverse
      (fun c hc => hws c (List.mem_reverse.mp hc))
  unfold pyInt
  rw [show (String.mk l).data = l from rfl, h1, h2, List.reverse_reverse]
  cases l with
  | nil => exact absurd rfl hne
  | cons c cs =>
    have hfacts := mem_decDigits_facts c (h c (List.mem_cons_self c cs))
    simp only [if_neg hfacts.2.2.2.1, if_neg hfacts.2.2.2.2,
      pyDigits_of_digits (c :: cs) h (by simp), Option.map_some']

theorem splitOnceChar_append {sep : Char} :
    ∀ {a : List Char}, sep ∉ a → ∀ b : List Char,
      splitOnceChar sep (a ++ sep :: b) = some (a, b) := by
  intro a
  induction a with
  | nil =>
    intro _ b
    simp [splitOnceChar]
  | cons c a' ih =>
    intro h b
    have hc : ¬c = sep := fun hc => h (hc ▸ List.mem_cons_self c a')
    have ih' := ih (fun hmem => h (List.mem_cons_of_mem c hmem)) b
    simp only [List.cons_append, splitOnceChar, if_neg hc, List.append_eq, ih']

theorem pySplitMax_zero (sep : Char) (l : List Char) :
    pySplitMax sep 0 l = [l] := rfl

theorem pySplitMax_succ (sep : Char) (k : Nat) (l : List Char) :
    pySplitMax sep (k + 1) l
      = match splitOnceChar sep l with
        | none => [l]
        | some (pre, post) => pre :: pySplitMax sep k post := rfl

theorem ne_mem_of_mem_decDigits {c : Char} (h : c ∈ decDigits) :
    ¬c = ':' ∧ ¬c = '.' :=
  ⟨(mem_decDigits_facts c h).2.1, (mem_decDigits_facts c h).2.2.1⟩

/-- The source parser accepts a canonically formatted time and recovers
exactly the `TimestampDelta` constructor values. -/
theorem parse_format (hh mm ss ms : Nat) (hmm : mm < 60) (hss : ss < 60)
    (hms : ms < 1000) :
    get_timestamp_from_string (String.mk
        (natRepr hh ++ ':' :: (padZeros 2 mm ++ ':' :: (padZeros 2 ss
          ++ '.' :: padZeros 3 ms))))
      = some (TimestampDelta.make hh mm ss ms) := by
  have hhhcolon : ':' ∉ natRepr hh :=
    fun hmem => (ne_mem_of_mem_decDigits (natRepr_mem_decDigits hh ':' hmem)).1 rfl
  have hmmcolon : ':' ∉ padZeros 2 mm :=
    fun hmem => (ne_mem_of_mem_decDigits (padZeros_mem_decDigits 2 mm ':' hmem)).1 rfl
  have hssdot : '.' ∉ padZeros 2 ss :=
    fun hmem => (ne_mem_of_mem_decDigits (padZeros_mem_decDigits 2 ss '.' hmem)).2 rfl
  have hsplit1 : splitOnceChar ':'
      (natRepr hh ++ ':' :: (padZeros 2 mm ++ ':' :: (padZeros 2 ss
        ++ '.' :: padZeros 3 ms)))
      = some (natRepr hh, padZeros 2 mm ++ ':' :: (padZeros 2 ss
          ++ '.' :: padZeros 3 ms)) :=
    splitOnceChar_append hhhcolon _
  have hsplit2 : splitOnceChar ':'
      (padZeros 2 mm ++ ':' :: (padZeros 2 ss ++ '.' :: padZeros 3 ms))
      = some (padZeros 2 mm, padZeros 2 ss ++ '.' :: padZeros 3 ms) :=
    splitOnceChar_append hmmcolon _
  have hsplit3 : splitOnceChar '.'
      (padZeros 2 ss ++ '.' :: padZeros 3 ms)
      = some (padZeros 2 ss, padZeros 3 ms) :=
    splitOnceChar_append hssdot _
  have hpy1 : pyInt (String.mk (natRepr hh)) = some ((hh : Nat) : Int) := by
    rw [pyInt_of_digits _ (natRepr_mem_decDigits hh) (natRepr_ne_nil hh),
      digitsNat_natRepr]
  have hpy2 : pyInt (String.mk (padZeros 2 mm)) = some ((mm : Nat) : Int) := by
    rw [pyInt_of_digits _ (padZeros_mem_decDigits 2 mm) (padZeros_ne_nil 2 mm),
      digitsNat_padZeros]
  have hpy3 : pyInt (String.mk (padZeros 2 ss)) = some ((ss : Nat) : Int) := by
    rw [pyInt_of_digits _ (padZeros_mem_decDigits 2 ss) (padZeros_ne_nil 2 ss),
      digitsNat_padZeros]
  have hpy4 : pyInt (String.mk (padZeros 3 ms)) = some ((ms : Nat) : Int) := by
    rw [pyInt_of_digits _ (padZeros_mem_decDigits 3 ms) (padZeros_ne_nil 3 ms),
      digitsNat_padZeros]
  have hne : ¬(String.mk (natRepr hh ++ ':' :: (padZeros 2 mm
      ++ ':' :: (padZeros 2 ss ++ '.' :: padZeros 3 ms))) = "") := by
    intro hcontra
    have hdata : natRepr hh ++ ':' :: (padZeros 2 mm
        ++ ':' :: (padZeros 2 ss ++ '.' :: padZeros 3 ms)) = ([] : List Char) :=
      congrArg String.data hcontra
    exact natRepr_ne_nil hh (List.append_eq_nil.mp hdata).1
  unfold get_timestamp_from_string
  rw [if_neg hne]
  simp only [show (String.mk (natRepr hh ++ ':' :: (padZeros 2 mm
      ++ ':' :: (padZeros 2 ss ++ '.' :: padZeros 3 ms)))).data
      = natRepr hh ++ ':' :: (padZeros 2 mm ++ ':' :: (padZeros 2 ss
        ++ '.' :: padZeros 3 ms)) from rfl,
    pySplitMax_succ, pySplitMax_zero, hsplit1, hsplit2, hsplit3,
    hpy1, hpy2, hpy3, hpy4]
  have hno1 : ¬((hh : Int) < 0) := by omega
  have hno2 : ¬((mm : Int) < 0 ∨ 60 ≤ (mm : Int)) := by omega
  have hno3 : ¬((ss : Int) < 0 ∨ 60 ≤ (ss : Int)) := by omega
  have hno4 : ¬((ms : Int) < 0 ∨ 1000 ≤ (ms : Int)) := by omega
  rw [if_neg hno1, if_neg hno2, if_neg hno3, if_neg hno4]
  simp [Int.toNat_ofNat]

/-- C1: arming with start 1000 ms and end 5000 ms (duration 60000 ms), then
delivering `on_position_changed(5001)` and one `tick()` yields exactly the
single seek command `set_time 1000` and returns the controller to the armed
state; the positions 4000, 4500 and 4999 never issue any command and leave
the armed state fixed. -/
theorem C1_loop_state_machine_trace :
    (runTrace
      (step { media_start_time := 0, media_end_time := -1,
              restart_needed := false, media_started_playing := false,
              media_is_playing := false }
        (.runSel (.ofMilliseconds 1000) (.ofMilliseconds 5000) 60000)).1
      [.posChanged 5001, .tick]
      = ((step { media_start_time := 0, media_end_time := -1,
                 restart_needed := false, media_started_playing := false,
                 media_is_playing := false }
          (.runSel (.ofMilliseconds 1000) (.ofMilliseconds 5000) 60000)).1,
         [Cmd.set_time 1000]))
    ∧ (runTrace
        (step { media_start_time := 0, media_end_time := -1,
                restart_needed := false, media_started_playing := false,
                media_is_playing := false }
          (.runSel (.ofMilliseconds 1000) (.ofMilliseconds 5000) 60000)).1
        [.posChanged 4000, .posChanged 4500, .posChanged 4999]
        = ((step { media_start_time := 0, media_end_time := -1,
                   restart_needed := false, media_started_playing := false,
                   media_is_playing := false }
            (.runSel (.ofMilliseconds 1000) (.ofMilliseconds 5000) 60000)).1,
           [])) := by
  decide

/-- C2: the position-change notification handler issues no command at all
and changes nothing but the restart flag (which it never clears); the
deferred seek to the armed start is issued by `timer_handler` — one periodic
tick later — exactly when the flag is set, and clears it. -/
theorem C2_seek_decoupled_from_callback :
    (∀ (st : LoopState) (current : Int),
      (media_time_change_handler st current).2 = []
      ∧ (media_time_change_handler st current).1.media_start_time
          = st.media_start_time
      ∧ (media_time_change_handler st current).1.media_end_time
          = st.media_end_time
      ∧ (media_time_change_handler st current).1.media_started_playing
          = st.media_started_playing
      ∧ (media_time_change_handler st current).1.media_is_playing
          = st.media_is_playing
      ∧ (st.restart_needed = true →
          (media_time_change_handler st current).1.restart_needed = true))
    ∧ (∀ st : LoopState, st.restart_needed = true →
        timer_handler st = ({ st with restart_needed := false },
          [Cmd.set_time st.media_start_time]))
    ∧ (∀ st : LoopState, st.restart_needed = false →
        timer_handler st = (st, [])) := by
  refine ⟨fun st current => ?_, fun st h => ?_, fun st h => ?_⟩
  · unfold media_time_change_handler
    split
    · simp
    · split <;> simp
  · simp [timer_handler, h]
  · simp [timer_handler, h]

/-- C2 witness: a concrete armed state with the flag set. -/
theorem C2_seek_decoupled_witness :
    (media_time_change_handler
        { media_start_time := 1000, media_end_time := 5000,
          restart_needed := true, media_started_playing := true,
          media_is_playing := true } 4000).2 = []
    ∧ timer_handler
        { media_start_time := 1000, media_end_time := 5000,
          restart_needed := true, media_started_playing := true,
          media_is_playing := true }
      = ({ media_start_time := 1000, media_end_time := 5000,
           restart_needed := false, media_started_playing := true,
           media_is_playing := true }, [Cmd.set_time 1000]) :=
  ⟨(C2_seek_decoupled_from_callback.1 _ 4000).1,
   C2_seek_decoupled_from_callback.2.1 _ rfl⟩

/-- C5 (code bug): the text `24:00:00.000` parses to exactly one day, whose
`milliseconds` property exposes 8640000 — the days contribution uses the
source's factor `24 * 60 * 60 * 100000` (a dropped zero) — while the claimed
formula `H*3600000 + MM*60000 + SS*1000 + mmm` gives 86400000. -/
theorem C5_milliseconds_code_bug_eval :
    (get_timestamp_from_string "24:00:00.000").map TimestampDelta.milliseconds
      = some 8640000
    ∧ 24 * 3600000 + 0 * 60000 + 0 * 1000 + 0 = 86400000
    ∧ (8640000 : Nat) ≠ 86400000
    ∧ (TimestampDelta.ofMilliseconds 86400000).milliseconds = 8640000 := by
  decide

/-- C6: a `set_value` on a time column with unparsable text leaves the whole
store — rows and the persisted backing source — unchanged, reports the
offending text, and returns failure. -/
theorem C6_failed_edit_preserves_store (st : TimestampModelState)
    (row col : Nat) (content : String)
    (hrow : row < st.rows.length) (hcol : col = 0 ∨ col = 1)
    (hbad : get_timestamp_from_string content = none) :
    setData st row col content
      = (st, false, some ("Time invalid: " ++ content)) := by
  unfold setData
  rw [dif_pos hrow, if_pos hcol, hbad]

/-- C6 witness: editing the single row of a concrete store with the
unparsable text `x`. -/
theorem C6_failed_edit_witness :
    setData
        { rows := [{ start_time := .ofMilliseconds 0,
                     end_time := .ofMilliseconds 0, description := none }],
          persisted := "[]" } 0 0 "x"
      = ({ rows := [{ start_time := .ofMilliseconds 0,
                      end_time := .ofMilliseconds 0, description := none }],
           persisted := "[]" }, false, some "Time invalid: x") :=
  C6_failed_edit_preserves_store _ 0 0 "x" (by decide) (Or.inl rfl) (by decide)

/-- C7: loading a source with any record whose start or end text fails to
parse leaves the window's store exactly as it was and surfaces the invalid
file error; no partially built list is ever installed. -/
theorem C7_load_atomic (w : WindowStore) (filename : String)
    (data : List RawRecord) (content : String)
    (hbad : ∃ r ∈ data, get_timestamp_from_string r.start_time = none
      ∨ get_timestamp_from_string r.end_time = none) :
    set_timestamp_filename w filename data content
      = (w, some "Timestamp file is invalid") := by
  unfold set_timestamp_filename mkTimestampModel
  rw [ofData_eq_none_of_bad data hbad]
  rfl

/-- C7 witness: a one-record source whose start text is unparsable. -/
theorem C7_load_atomic_witness :
    set_timestamp_filename
        { timestamp_model := { rows := [], persisted := "" },
          timestamp_filename := none }
        "list.tmsp"
        [{ start_time := "9:99:99.999", end_time := "", description := none }]
        "junk"
      = ({ timestamp_model := { rows := [], persisted := "" },
           timestamp_filename := none },
         some "Timestamp file is invalid") :=
  C7_load_atomic _ "list.tmsp" _ "junk"
    ⟨_, List.mem_singleton.mpr rfl, Or.inl (by decide)⟩

/-- C8 counterexample to the claim as stated: a run with duration 0 from
previously armed bounds (2000, 7000) does fail before any command is issued,
but it has already overwritten the armed bounds with the new interval's
values — they are not left unchanged by the failed attempt. -/
theorem C8_counterexample :
    run_selected
        { media_start_time := 2000, media_end_time := 7000,
          restart_needed := false, media_started_playing := true,
          media_is_playing := true }
        (.ofMilliseconds 1000) (.ofMilliseconds 5000) 0
      = ({ media_start_time := 1000, media_end_time := 5000,
           restart_needed := false, media_started_playing := true,
           media_is_playing := true }, [], true)
    ∧ (1000 : Int) ≠ 2000 := by
  decide

/-- C8 (amended): a run with zero/unknown duration fails with an error and
issues no highlight, play or seek command, but the armed bounds have already
been overwritten with the selected interval's values when the failure (the
`ZeroDivisionError` of the highlight computation) occurs. -/
theorem C8_zero_duration_fails_after_bounds_write (st : LoopState)
    (start_delta end_delta : TimestampDelta) :
    run_selected st start_delta end_delta 0
      = ({ st with media_start_time := (start_delta.milliseconds : Int),
                   media_end_time := (end_delta.milliseconds : Int) },
         [], true) := by
  rfl

/-- C8 witness for the amended statement at a concrete state and interval. -/
theorem C8_zero_duration_witness :
    run_selected
        { media_start_time := 0, media_end_time := -1, restart_needed := false,
          media_started_playing := false, media_is_playing := false }
        (.ofMilliseconds 1000) (.ofMilliseconds 5000) 0
      = ({ media_start_time := 1000, media_end_time := 5000,
           restart_needed := false, media_started_playing := false,
           media_is_playing := false }, [], true) :=
  (C8_zero_duration_fails_after_bounds_write _ _ _).trans (by decide)

/-- C10: successful time edits are stored as the parsed value and displayed
in canonical form: after `setData` succeeds on a time column, `display_at`
returns the rendering of the parsed value, not the entered text. -/
theorem C10_canonical_display (st : TimestampModelState) (row col : Nat)
    (content : String) (d : TimestampDelta)
    (hrow : row < st.rows.length) (hcol : col = 0 ∨ col = 1)
    (hparse : get_timestamp_from_string content = some d) :
    (setData st row col content).2.1 = true
    ∧ (setData st row col content).1.display_at row col
        = some d.str := by
  unfold setData
  rw [dif_pos hrow, if_pos hcol, hparse]
  refine ⟨rfl, ?_⟩
  unfold TimestampModelState.display_at
  rw [List.getElem?_set_self (by simpa using hrow)]
  rcases hcol with rfl | rfl
  · simp [Timestamp.get_string_value_from_index]
  · simp [Timestamp.get_string_value_from_index]

/-- C10 witness: entering `1:2:3.4` is accepted and thereafter displayed as
`1:02:03.004`; entering `0:00:00.000` is thereafter displayed as the empty
string. -/
theorem C10_canonical_display_witness :
    ((setData
        { rows := [{ start_time := .ofMilliseconds 0,
                     end_time := .ofMilliseconds 0, description := none }],
          persisted := "[]" } 0 0 "1:2:3.4").1.display_at 0 0
      = some "1:02:03.004")
    ∧ ((setData
        { rows := [{ start_time := .ofMilliseconds 7,
                     end_time := .ofMilliseconds 0, description := none }],
          persisted := "[]" } 0 0 "0:00:00.000").1.display_at 0 0
      = some "") :=
  ⟨((C10_canonical_display _ 0 0 "1:2:3.4" (.make 1 2 3 4) (by decide)
      (Or.inl rfl) (by decide)).2).trans (by decide),
   ((C10_canonical_display _ 0 0 "0:00:00.000" (.make 0 0 0 0) (by decide)
      (Or.inl rfl) (by decide)).2).trans (by decide)⟩

/-! ### Stable-sort lemmas (for C9) -/

theorem mem_insertStable {lt : α → α → Bool} {x a : α} :
    ∀ {l : List α}, a ∈ insertStable lt x l ↔ a = x ∨ a ∈ l := by
  intro l
  induction l with
  | nil => simp [insertStable]
  | cons y ys ih =>
    simp only [insertStable]
    split
    · simp only [List.mem_cons, ih]
      exact or_left_comm
    · exact List.mem_cons

theorem insertStable_perm (lt : α → α → Bool) (x : α) :
    ∀ l : List α, (insertStable lt x l).Perm (x :: l) := by
  intro l
  induction l with
  | nil => exact List.Perm.refl _
  | cons y ys ih =>
    simp only [insertStable]
    split
    · exact (ih.cons y).trans (List.Perm.swap x y ys)
    · exact List.Perm.refl _

theorem sortStable_perm (lt : α → α → Bool) :
    ∀ l : List α, (sortStable lt l).Perm l := by
  intro l
  induction l with
  | nil => exact List.Perm.refl _
  | cons x xs ih =>
    exact (insertStable_perm lt x (sortStable lt xs)).trans (ih.cons x)

theorem pairwise_insertStable {lt : α → α → Bool} {le : α → α → Prop}
    (h1 : ∀ a b, lt a b = true → le a b)
    (h2 : ∀ a b, lt a b = false → le b a)
    (htrans : ∀ a b c, le a b → le b c → le a c)
    (x : α) :
    ∀ l : List α, l.Pairwise le → (insertStable lt x l).Pairwise le := by
  intro l
  induction l with
  | nil => intro _; exact List.pairwise_singleton le x
  | cons y ys ih =>
    intro hp
    rw [List.pairwise_cons] at hp
    simp only [insertStable]
    split
    · rename_i hlt
      rw [List.pairwise_cons]
      refine ⟨fun a ha => ?_, ih hp.2⟩
      rcases mem_insertStable.mp ha with rfl | ha'
      · exact h1 _ _ hlt
      · exact hp.1 a ha'
    · rename_i hlt
      rw [List.pairwise_cons]
      refine ⟨fun a ha => ?_, List.pairwise_cons.mpr hp⟩
      rcases List.mem_cons.mp ha with rfl | ha'
      · exact h2 _ _ (Bool.eq_false_iff.mpr hlt)
      · exact htrans _ _ _ (h2 _ _ (Bool.eq_false_iff.mpr hlt)) (hp.1 a ha')

theorem pairwise_sortStable {lt : α → α → Bool} {le : α → α → Prop}
    (h1 : ∀ a b, lt a b = true → le a b)
    (h2 : ∀ a b, lt a b = false → le b a)
    (htrans : ∀ a b c, le a b → le b c → le a c) :
    ∀ l : List α, (sortStable lt l).Pairwise le := by
  intro l
  induction l with
  | nil => simp [sortStable]
  | cons x xs ih => exact pairwise_insertStable h1 h2 htrans x _ ih

theorem filter_insertStable_neg {lt : α → α → Bool} {p : α → Bool} {x : α}
    (hpx : p x = false) :
    ∀ l : List α, (insertStable lt x l).filter p = l.filter p := by
  intro l
  induction l with
  | nil => simp [insertStable, hpx]
  | cons y ys ih =>
    simp only [insertStable]
    split
    · simp [List.filter_cons, ih]
    · simp [List.filter_cons, hpx]

theorem filter_insertStable_pos {lt : α → α → Bool} {p : α → Bool} {x : α}
    (hpx : p x = true) (hstop : ∀ y, p y = true → lt y x = false) :
    ∀ l : List α, (insertStable lt x l).filter p = x :: l.filter p := by
  intro l
  induction l with
  | nil => simp [insertStable, hpx]
  | cons y ys ih =>
    simp only [insertStable]
    split
    · rename_i hlt
      have hpy : p y = false := by
        cases hy : p y
        · rfl
        · rw [hstop y hy] at hlt; cases hlt
      simp [List.filter_cons, hpy, ih]
    · simp [List.filter_cons, hpx]

theorem filter_sortStable {lt : α → α → Bool} {p : α → Bool}
    (hstop : ∀ x y, p x = true → p y = true → lt y x = false) :
    ∀ l : List α, (sortStable lt l).filter p = l.filter p := by
  intro l
  induction l with
  | nil => rfl
  | cons x xs ih =>
    simp only [sortStable]
    cases hx : p x
    · rw [filter_insertStable_neg hx, ih, List.filter_cons, hx]
      simp
    · rw [filter_insertStable_pos hx (fun y hy => hstop x y hx hy), ih,
        List.filter_cons, hx]
      simp

/-! ### Claim C9 -/

/-- C9: `TimestampList.sort` is a stable reordering by start milliseconds —
it permutes the list into ascending (respectively descending) key order while
intervals with equal start keep their original relative order — and on starts
`[5,3,5,1]` (rows tagged A,B,C,D) ascending sort yields `[D,B,A,C]`. -/
theorem C9_sort_stable_by_start :
    (∀ (l : List Timestamp) (k : Nat),
      (TimestampList.sort false l).Perm l
      ∧ (TimestampList.sort false l).Pairwise
          (fun a b => a.start_time.milliseconds ≤ b.start_time.milliseconds)
      ∧ (TimestampList.sort false l).filter
            (fun t => t.start_time.milliseconds == k)
          = l.filter (fun t => t.start_time.milliseconds == k)
      ∧ (TimestampList.sort true l).Perm l
      ∧ (TimestampList.sort true l).Pairwise
          (fun a b => b.start_time.milliseconds ≤ a.start_time.milliseconds)
      ∧ (TimestampList.sort true l).filter
            (fun t => t.start_time.milliseconds == k)
          = l.filter (fun t => t.start_time.milliseconds == k))
    ∧ TimestampList.sort false
        [{ start_time := .ofMilliseconds 5, end_time := .ofMilliseconds 0,
           description := some "A" },
         { start_time := .ofMilliseconds 3, end_time := .ofMilliseconds 0,
           description := some "B" },
         { start_time := .ofMilliseconds 5, end_time := .ofMilliseconds 0,
           description := some "C" },
         { start_time := .ofMilliseconds 1, end_time := .ofMilliseconds 0,
           description := some "D" }]
      = [{ start_time := .ofMilliseconds 1, end_time := .ofMilliseconds 0,
           description := some "D" },
         { start_time := .ofMilliseconds 3, end_time := .ofMilliseconds 0,
           description := some "B" },
         { start_time := .ofMilliseconds 5, end_time := .ofMilliseconds 0,
           description := some "A" },
         { start_time := .ofMilliseconds 5, end_time := .ofMilliseconds 0,
           description := some "C" }] := by
  constructor
  · intro l k
    have e1 : TimestampList.sort false l
        = sortStable (fun a b =>
            decide (a.start_time.milliseconds < b.start_time.milliseconds)) l :=
      rfl
    have e2 : TimestampList.sort true l
        = sortStable (fun a b =>
            decide (b.start_time.milliseconds < a.start_time.milliseconds)) l :=
      rfl
    rw [e1, e2]
    refine ⟨sortStable_perm _ l, ?_, ?_, sortStable_perm _ l, ?_, ?_⟩
    · exact @pairwise_sortStable _
        (fun a b => decide (a.start_time.milliseconds < b.start_time.milliseconds))
        (fun a b => a.start_time.milliseconds ≤ b.start_time.milliseconds)
        (fun a b h => by have := of_decide_eq_true h; omega)
        (fun a b h => by have := of_decide_eq_false h; omega)
        (fun a b c hab hbc => le_trans hab hbc) l
    · exact @filter_sortStable _
        (fun a b => decide (a.start_time.milliseconds < b.start_time.milliseconds))
        (fun t => t.start_time.milliseconds == k)
        (fun x y hx hy => by
          simp only [beq_iff_eq] at hx hy
          exact decide_eq_false (by omega)) l
    · exact @pairwise_sortStable _
        (fun a b => decide (b.start_time.milliseconds < a.start_time.milliseconds))
        (fun a b => b.start_time.milliseconds ≤ a.start_time.milliseconds)
        (fun a b h => by have := of_decide_eq_true h; omega)
        (fun a b h => by have := of_decide_eq_false h; omega)
        (fun a b c hab hbc => le_trans hbc hab) l
    · exact @filter_sortStable _
        (fun a b => decide (b.start_time.milliseconds < a.start_time.milliseconds))
        (fun t => t.start_time.milliseconds == k)
        (fun x y hx hy => by
          simp only [beq_iff_eq] at hx hy
          exact decide_eq_false (by omega)) l
  · decide

/-- C9 witness: the stability equality instantiated at the `[5,3,5,1]`
example list and key 5. -/
theorem C9_sort_stable_witness :
    (TimestampList.sort false
        [{ start_time := .ofMilliseconds 5, end_time := .ofMilliseconds 0,
           description := some "A" },
         { start_time := .ofMilliseconds 3, end_time := .ofMilliseconds 0,
           description := some "B" },
         { start_time := .ofMilliseconds 5, end_time := .ofMilliseconds 0,
           description := some "C" },
         { start_time := .ofMilliseconds 1, end_time := .ofMilliseconds 0,
           description := some "D" }]).filter
        (fun t => t.start_time.milliseconds == 5)
      = [{ start_time := .ofMilliseconds 5, end_time := .ofMilliseconds 0,
           description := some "A" },
         { start_time := .ofMilliseconds 3, end_time := .ofMilliseconds 0,
           description := some "B" },
         { start_time := .ofMilliseconds 5, end_time := .ofMilliseconds 0,
           description := some "C" },
         { start_time := .ofMilliseconds 1, end_time := .ofMilliseconds 0,
           description := some "D" }].filter
        (fun t => t.start_time.milliseconds == 5) :=
  (C9_sort_stable_by_start.1 _ 5).2.2.1

set_option maxRecDepth 4000 in
/-- C3: for every millisecond value below 24 hours, parsing the canonical
rendering of a `TimestampDelta` of that many milliseconds recovers exactly
that value (the zero case rendering as `""` included). -/
theorem C3_round_trip (m : Nat) (h : m < 86400000) :
    get_timestamp_from_string (TimestampDelta.ofMilliseconds m).str
      = some (TimestampDelta.ofMilliseconds m) := by
  have hdays : (TimestampDelta.ofMilliseconds m).days = 0 := by
    simp only [TimestampDelta.ofMilliseconds, TimestampDelta.ofMicroseconds]
    omega
  have hsec : (TimestampDelta.ofMilliseconds m).seconds = m / 1000 := by
    simp only [TimestampDelta.ofMilliseconds, TimestampDelta.ofMicroseconds]
    omega
  have hmicro : (TimestampDelta.ofMilliseconds m).microseconds
      = m % 1000 * 1000 := by
    simp only [TimestampDelta.ofMilliseconds, TimestampDelta.ofMicroseconds]
    omega
  have hms : (TimestampDelta.ofMilliseconds m).milliseconds = m := by
    unfold TimestampDelta.milliseconds
    rw [hdays, hsec, hmicro]
    omega
  by_cases h0 : m = 0
  · subst h0
    decide
  · have hstr : (TimestampDelta.ofMilliseconds m).str
        = String.mk (natRepr (m / 1000 / 60 / 60)
            ++ ':' :: (padZeros 2 (m / 1000 / 60 % 60)
            ++ ':' :: (padZeros 2 (m / 1000 % 60)
            ++ '.' :: padZeros 3 (m % 1000)))) := by
      unfold TimestampDelta.str
      rw [if_neg (by rw [hms]; exact h0)]
      rw [hdays, hsec, hmicro]
      have hdiv : m % 1000 * 1000 / 1000 = m % 1000 := by omega
      simp only [hdiv, ne_eq, not_true_eq_false, if_neg, ite_false,
        Nat.mul_zero, Nat.zero_mul, Nat.add_zero, List.cons_append,
        List.append_assoc]
    rw [hstr, parse_format _ _ _ _ (by omega) (by omega) (by omega)]
    congr 1
    unfold TimestampDelta.make TimestampDelta.ofMilliseconds
    congr 1
    omega

/-- C3 witness at `m = 3723045` (rendered `1:02:03.045`). -/
theorem C3_round_trip_witness :
    3723045 < 86400000
    ∧ get_timestamp_from_string (TimestampDelta.ofMilliseconds 3723045).str
        = some (TimestampDelta.ofMilliseconds 3723045) :=
  ⟨by decide, C3_round_trip 3723045 (by decide)⟩

/-- C4 counterexample to the claim as stated: `1:2:3.4` does not match the
claimed canonical shape (two-digit minutes/seconds, three-digit
milliseconds), yet the parser accepts it — as 1 h, 2 min, 3 s, 4 ms — rather
than failing with `FormatError`. -/
theorem C4_counterexample :
    ("1:2:3.4" : String) ≠ ""
    ∧ strictAccepts "1:2:3.4" = false
    ∧ get_timestamp_from_string "1:2:3.4"
        = some (TimestampDelta.make 1 2 3 4) := by
  refine ⟨by decide, by decide, by decide⟩

/-- C4 (amended): the parser fails exactly on the non-empty inputs that do
not decompose, at the first two colons and the first following dot, into four
Python integer literals with hours nonnegative, minutes and seconds below 60
and milliseconds below 1000 — zero padding is not required; in particular the
four listed inputs are rejected and the empty string parses as zero. -/
theorem C4_failure_characterization :
    (∀ s : String, get_timestamp_from_string s = none
      ↔ (s ≠ "" ∧ lenientAccepts s = false))
    ∧ get_timestamp_from_string "1:60:00.000" = none
    ∧ get_timestamp_from_string "1:00:60.000" = none
    ∧ get_timestamp_from_string "1:00:00.1000" = none
    ∧ get_timestamp_from_string "-1:00:00.000" = none
    ∧ get_timestamp_from_string "" = some (TimestampDelta.ofMilliseconds 0) := by
  refine ⟨fun s => ?_, by decide, by decide, by decide, by decide, by decide⟩
  by_cases hs : s = ""
  · subst hs
    simp [get_timestamp_from_string]
  · unfold get_timestamp_from_string lenientAccepts
    rw [if_neg hs]
    rcases h1 : splitOnceChar ':' s.data with _ | ⟨a, r⟩
    · simp [pySplitMax_succ, h1, hs]
    · rcases h2 : splitOnceChar ':' r with _ | ⟨b, r2⟩
      · simp [pySplitMax_succ, h1, h2, hs]
      · rcases h3 : splitOnceChar '.' r2 with _ | ⟨c, d⟩
        · simp [pySplitMax_succ, pySplitMax_zero, h1, h2, h3, hs]
        · rcases h4 : pyInt (String.mk a) with _ | hv
          · simp [pySplitMax_succ, pySplitMax_zero, h1, h2, h3, h4, hs]
          · rcases h5 : pyInt (String.mk b) with _ | mv
            · simp [pySplitMax_succ, pySplitMax_zero, h1, h2, h3, h4, h5, hs]
            · rcases h6 : pyInt (String.mk c) with _ | sv
              · simp [pySplitMax_succ, pySplitMax_zero, h1, h2, h3, h4, h5,
                  h6, hs]
              · rcases h7 : pyInt (String.mk d) with _ | msv
                · simp [pySplitMax_succ, pySplitMax_zero, h1, h2, h3, h4, h5,
                    h6, h7, hs]
                · simp only [pySplitMax_succ, pySplitMax_zero, h1, h2, h3,
                    h4, h5, h6, h7, ne_eq, hs, not_false_iff, true_and]
                  split_ifs <;> simp [decide_eq_false_iff_not] <;> omega

/-- C4 witness for the amended characterization at a failing and a passing
input. -/
theorem C4_failure_characterization_witness :
    (get_timestamp_from_string "1:60:00.000" = none
      ↔ ("1:60:00.000" ≠ "" ∧ lenientAccepts "1:60:00.000" = false))
    ∧ (get_timestamp_from_string "1:2:3.4" = none
      ↔ ("1:2:3.4" ≠ "" ∧ lenientAccepts "1:2:3.4" = false)) :=
  ⟨C4_failure_characterization.1 "1:60:00.000",
   C4_failure_characterization.1 "1:2:3.4"⟩

example : get_timestamp_from_string "1:02:03.045" =
    some (TimestampDelta.make 1 2 3 45) := by decide

example : get_timestamp_from_string "" = some (TimestampDelta.ofMilliseconds 0) := by
  decide

example : get_timestamp_from_string "1:60:00.000" = none := by decide

example : get_timestamp_from_string "1:2:3.4" = some (TimestampDelta.make 1 2 3 4) := by
  decide

example : (TimestampDelta.ofMilliseconds 3723045).str = "1:02:03.045" := by decide

example : (TimestampDelta.ofMilliseconds 0).str = "" := by decide

end Looper
